import Mathlib

/-!
Shallow embedding of the plant-health monitoring application (`src/App.tsx`
together with its `types.ts` interfaces).

Modelling conventions:
* The React component state (`useState` hooks) and the three `localStorage`
  keys (`plant_health_users`, `plant_health_currentUser`,
  `plant_health_analyses`) form one explicit record `AppState`.
* `localStorage.getItem` returning `null` for an absent key is modelled by
  `Option`; `JSON.parse(... || '[]')` becomes `Option.getD [] `.
* Wall-clock readings (`Date.now()` and `new Date().toISOString()`) are
  modelled by a `Nat` argument `now` supplied to each handler invocation:
  an ISO-8601 timestamp string is a strictly monotone injective image of the
  underlying millisecond instant, so ordering and equality of timestamps are
  represented faithfully by the `Nat`.  The two clock reads inside one
  synchronous success block (lines 80 and 83 of `App.tsx`) are modelled as one
  reading.
* The fallible part of `handleAnalyzeClick`'s `try` block (`fileToBase64`,
  MIME extraction, and the external `analyzePlantHealth` call) is modelled by
  an `Except String AnalysisResult` argument: `.ok r` is a structured result,
  `.error msg` carries the human-readable message the `catch` block computes
  (`err.message`, or the generic "An unknown error occurred during analysis."
  for non-`Error` throwables).
* JavaScript truthiness of the guard `!imagePreview || !currentUser`
  (line 63): `imagePreview` is a string-or-null, falsy when `null` or `""`;
  `currentUser` is an object-or-null, falsy exactly when `null`.
* `AppState.inferenceCalls` is ghost instrumentation (not program data): it
  counts the entries into the `try` block that reach the external analysis
  chain, i.e. the invocations of the external inference capability.
* `confidence_score` is a JSON number; it is modelled as `Rat` (no arithmetic
  on it occurs anywhere in the program).
-/

namespace PlantHealth

/-- The role union `'user' | 'admin'` from `types.ts` (`User.role`). -/
inductive Role where
  | user
  | admin
deriving DecidableEq

/-- The `AnalysisResult` interface of `types.ts`. -/
structure AnalysisResult where
  plant_name : String
  is_healthy : Bool
  disease_name : String
  confidence_score : Rat
  description : String
  possible_causes : List String
  recommended_actions : List String
deriving DecidableEq

/-- The `User` interface of `types.ts` (a session principal; no password). -/
structure User where
  id : String
  email : String
  role : Role
deriving DecidableEq

/-- A record of the mock user database stored under `plant_health_users`:
the `User` fields plus the plaintext `password` (see `initializeMockUsers`
and `handleRegister` in `App.tsx`). -/
structure StoredUser where
  id : String
  email : String
  password : String
  role : Role
deriving DecidableEq

/-- The `HistoricalAnalysis` interface of `types.ts`.  `timestamp` is the
millisecond instant whose ISO-8601 rendering the source stores. -/
structure HistoricalAnalysis where
  id : String
  userEmail : String
  analysis : AnalysisResult
  timestamp : Nat
  imageUrl : String
deriving DecidableEq

/-- The full mutable state of the application: the seven `useState` hooks of
the `App` component followed by the three `localStorage` keys, plus the ghost
counter `inferenceCalls` (see the module docstring). -/
structure AppState where
  imagePreview : Option String
  analysisResult : Option AnalysisResult
  isLoading : Bool
  error : Option String
  currentUser : Option User
  historicalAnalyses : List HistoricalAnalysis
  authError : Option String
  storedUsers : Option (List StoredUser)
  storedCurrentUser : Option User
  storedAnalyses : Option (List HistoricalAnalysis)
  inferenceCalls : Nat
deriving DecidableEq

/-- The admin record seeded by `initializeMockUsers` (`App.tsx` lines 16-21). -/
def adminSeedUser : StoredUser :=
  { id := "admin-001"
    email := "admin@plant.health"
    password := "admin123"
    role := Role.admin }

/-- Embeds `initializeMockUsers` (`App.tsx` lines 14-24): seeds the registry with the
admin record when the `plant_health_users` key is absent. -/
def initializeMockUsers (st : AppState) : AppState :=
  if st.storedUsers = none then { st with storedUsers := some [adminSeedUser] } else st

/-- The Account Registry contents as every handler reads them:
`JSON.parse(localStorage.getItem('plant_health_users') || '[]')`. -/
def registry (st : AppState) : List StoredUser :=
  st.storedUsers.getD []

/-- The component state at mount: all hooks at their `useState` initial
values, with nothing persisted yet (first run). -/
def freshState : AppState :=
  { imagePreview := none
    analysisResult := none
    isLoading := false
    error := none
    currentUser := none
    historicalAnalyses := []
    authError := none
    storedUsers := none
    storedCurrentUser := none
    storedAnalyses := none
    inferenceCalls := 0 }

/-- First-run initial state: module evaluation runs `initializeMockUsers()`
(`App.tsx` line 26) before the component state exists. -/
def initState : AppState :=
  initializeMockUsers freshState

/-- Embeds `handleImageSelect` (`App.tsx` lines 52-60): the `FileReader` decodes the
file into a data URI; `onloadend` stores it and clears both the previous
result and the previous error. -/
def handleImageSelect (dataUri : String) (st : AppState) : AppState :=
  { st with imagePreview := some dataUri, analysisResult := none, error := none }

/-- The string id `analysis-${Date.now()}` (`App.tsx` line 80). -/
def mkAnalysisId (now : Nat) : String :=
  "analysis-" ++ Nat.repr now

/-- Embeds `handleAnalyzeClick` (`App.tsx` lines 62-97), as a function of the state,
the clock reading and the outcome of the fallible `try`-block chain (see the
module docstring).  The guard (line 63) checks JS-falsiness of `imagePreview`
and `currentUser` and does not consult `isLoading`.  On success the new
record is prepended to the history and the whole sequence persisted
(lines 79-89); on failure only the error message is captured (line 93); the
`finally` clause clears `isLoading` on every completed invocation
(line 95). -/
def handleAnalyzeClick (st : AppState) (now : Nat)
    (outcome : Except String AnalysisResult) : AppState :=
  match st.imagePreview, st.currentUser with
  | some img, some user =>
    if img = "" then
      { st with error := some "Please select an image first." }
    else
      match outcome with
      | Except.ok result =>
        let newAnalysis : HistoricalAnalysis :=
          { id := mkAnalysisId now
            userEmail := user.email
            analysis := result
            timestamp := now
            imageUrl := img }
        let updatedAnalyses := newAnalysis :: st.historicalAnalyses
        { st with
            isLoading := false
            error := none
            analysisResult := some result
            historicalAnalyses := updatedAnalyses
            storedAnalyses := some updatedAnalyses
            inferenceCalls := st.inferenceCalls + 1 }
      | Except.error msg =>
        { st with
            isLoading := false
            analysisResult := none
            error := some msg
            inferenceCalls := st.inferenceCalls + 1 }
  | _, _ => { st with error := some "Please select an image first." }

/-- The predicate of `users.find(...)` in `handleLogin` (`App.tsx` line 102):
exact match of both email and password. -/
def matchesCred (email password : String) (u : StoredUser) : Bool :=
  u.email == email && u.password == password

/-- Embeds `handleLogin` (`App.tsx` lines 99-110). -/
def handleLogin (email password : String) (st : AppState) : AppState :=
  let users := registry st
  match users.find? (matchesCred email password) with
  | some u =>
    let userData : User := { id := u.id, email := u.email, role := u.role }
    { st with
        authError := none
        currentUser := some userData
        storedCurrentUser := some userData }
  | none => { st with authError := some "Invalid email or password." }

/-- The record `handleRegister` builds (`App.tsx` lines 119-126), with the id
`user-${Date.now()}`. -/
def mkNewUser (now : Nat) (email password : String) : StoredUser :=
  { id := "user-" ++ Nat.repr now
    email := email
    password := password
    role := Role.user }

/-- Embeds `handleRegister` (`App.tsx` lines 112-134): duplicate email check, push of
the new role-`user` record, persistence, and automatic login. -/
def handleRegister (now : Nat) (email password : String) (st : AppState) : AppState :=
  let users := registry st
  if users.any (fun u => u.email == email) then
    { st with authError := some "An account with this email already exists." }
  else
    let newUser := mkNewUser now email password
    let users2 := users ++ [newUser]
    let userData : User := { id := newUser.id, email := newUser.email, role := newUser.role }
    { st with
        authError := none
        storedUsers := some users2
        currentUser := some userData
        storedCurrentUser := some userData }

/-- Embeds `handleLogout` (`App.tsx` lines 136-139). -/
def handleLogout (st : AppState) : AppState :=
  { st with currentUser := none, storedCurrentUser := none }

/-- The surface the component renders (`App.tsx` lines 142-181): the auth
page when no principal is authenticated, the admin dashboard (receiving the
full `historicalAnalyses` sequence, line 151) for an admin, and the user
workspace otherwise. -/
inductive Surface where
  | authPage (authError : Option String)
  | adminDashboard (analyses : List HistoricalAnalysis)
  | userWorkspace (imagePreview : Option String) (analysisResult : Option AnalysisResult)
      (isLoading : Bool) (error : Option String)
deriving DecidableEq

/-- The render function of `App` (`App.tsx` lines 142-181) restricted to
which surface is shown and which data it receives. -/
def renderApp (st : AppState) : Surface :=
  match st.currentUser with
  | none => Surface.authPage st.authError
  | some u =>
    if u.role = Role.admin then Surface.adminDashboard st.historicalAnalyses
    else Surface.userWorkspace st.imagePreview st.analysisResult st.isLoading st.error

/-- Modelled from the spec: §4.4 `listForPrincipal`.  The admin branch is in
the source (`App.tsx` line 151 passes the full, unfiltered sequence to the
admin dashboard — see `renderApp`); the user-role filtered listing lives in
components that are not under `src/`, so it is modelled from the spec's
words: "if `principal.role == admin`, returns the full sequence unfiltered
(newest first); otherwise returns only records whose `userEmail` equals
`principal.email`, preserving overall order." -/
def listForPrincipal (p : User) (hist : List HistoricalAnalysis) : List HistoricalAnalysis :=
  if p.role = Role.admin then hist
  else hist.filter (fun r => r.userEmail == p.email)

/-- One observable user-level operation on the application, carrying the
environment data the corresponding handler consumes (clock readings,
inference outcomes, form fields). -/
inductive Op where
  | selectImage (dataUri : String)
  | analyze (now : Nat) (outcome : Except String AnalysisResult)
  | login (email password : String)
  | register (now : Nat) (email password : String)
  | logout

/-- Dispatch one operation to its handler. -/
def step (st : AppState) : Op → AppState
  | Op.selectImage dataUri => handleImageSelect dataUri st
  | Op.analyze now outcome => handleAnalyzeClick st now outcome
  | Op.login email password => handleLogin email password st
  | Op.register now email password => handleRegister now email password st
  | Op.logout => handleLogout st

/-- Run a sequence of operations from a state. -/
def run (st : AppState) : List Op → AppState
  | [] => st
  | op :: ops => run (step st op) ops

/-- The clock readings of the `analyze` operations of a run, in order. -/
def analyzeClocks : List Op → List Nat
  | [] => []
  | Op.analyze now _ :: ops => now :: analyzeClocks ops
  | _ :: ops => analyzeClocks ops

/-! ### Auxiliary facts about `Nat.repr`

The history record ids are the strings `analysis-${Date.now()}`; to reason
about their uniqueness we need that the decimal rendering of a natural
number is injective. -/

theorem toDigitsCore_append (b : Nat) : ∀ (f n : Nat) (l : List Char),
    Nat.toDigitsCore b f n l = Nat.toDigitsCore b f n [] ++ l
  | 0, _, _ => by simp [Nat.toDigitsCore]
  | f + 1, n, l => by
    simp only [Nat.toDigitsCore]
    by_cases h : n / b = 0
    · simp [h]
    · simp only [h, if_false]
      rw [toDigitsCore_append b f (n / b) (Nat.digitChar (n % b) :: l),
        toDigitsCore_append b f (n / b) [Nat.digitChar (n % b)]]
      simp

theorem toDigitsCore_fuel (b : Nat) (hb : 2 ≤ b) : ∀ (n f g : Nat) (l : List Char),
    n < f → n < g → Nat.toDigitsCore b f n l = Nat.toDigitsCore b g n l := by
  intro n
  induction n using Nat.strong_induction_on with
  | _ n ih =>
    intro f g l hf hg
    match f, g with
    | f + 1, g + 1 =>
      simp only [Nat.toDigitsCore]
      by_cases h : n / b = 0
      · simp [h]
      · simp only [h, if_false]
        have hn : n ≠ 0 := by
          intro hn0
          exact h (by simp [hn0])
        have hlt : n / b < n := Nat.div_lt_self (Nat.pos_of_ne_zero hn) (by omega)
        exact ih (n / b) hlt f g _ (by omega) (by omega)

theorem toDigits_step (n : Nat) : Nat.toDigits 10 n =
    if n < 10 then [Nat.digitChar n]
    else Nat.toDigits 10 (n / 10) ++ [Nat.digitChar (n % 10)] := by
  by_cases h : n < 10
  · have h0 : n / 10 = 0 := Nat.div_eq_of_lt h
    have hm : n % 10 = n := Nat.mod_eq_of_lt h
    simp [Nat.toDigits, Nat.toDigitsCore, h0, hm, h]
  · have h0 : n / 10 ≠ 0 := by
      intro h0
      exact h (by omega)
    simp only [Nat.toDigits, Nat.toDigitsCore, h0, if_false, h]
    rw [toDigitsCore_append 10 n (n / 10) [Nat.digitChar (n % 10)]]
    congr 1
    exact toDigitsCore_fuel 10 (by omega) (n / 10) n (n / 10 + 1) []
      (by
        have hn : n ≠ 0 := by
          intro hn0
          exact h0 (by simp [hn0])
        exact Nat.div_lt_self (Nat.pos_of_ne_zero hn) (by omega))
      (Nat.lt_succ_self _)

/-- The numeric value of a decimal digit character. -/
def dval (c : Char) : Nat := c.toNat - Char.toNat '0'

/-- Decimal evaluation of a digit string, the left inverse of
`Nat.toDigits 10`. -/
def evalDigits (l : List Char) : Nat := l.foldl (fun a c => 10 * a + dval c) 0

theorem dval_digitChar : ∀ d, d < 10 → dval (Nat.digitChar d) = d := by decide

theorem evalDigits_toDigits (n : Nat) : evalDigits (Nat.toDigits 10 n) = n := by
  induction n using Nat.strong_induction_on with
  | _ n ih =>
    rw [toDigits_step]
    by_cases h : n < 10
    · simp [h, evalDigits, dval_digitChar n h]
    · have hn : n ≠ 0 := by omega
      have hlt : n / 10 < n := Nat.div_lt_self (Nat.pos_of_ne_zero hn) (by omega)
      simp only [h, if_false, evalDigits, List.foldl_append]
      have hrec := ih (n / 10) hlt
      simp only [evalDigits] at hrec
      rw [hrec]
      simp [dval_digitChar (n % 10) (Nat.mod_lt n (by omega))]
      omega

theorem natRepr_injective : Function.Injective Nat.repr := by
  intro m n h
  have h2 : Nat.toDigits 10 m = Nat.toDigits 10 n := by
    have hd := congrArg String.data h
    simpa [Nat.repr, List.asString] using hd
  have h3 := congrArg evalDigits h2
  rwa [evalDigits_toDigits, evalDigits_toDigits] at h3

theorem mkAnalysisId_injective : Function.Injective mkAnalysisId := by
  intro m n h
  apply natRepr_injective
  have hd := congrArg String.data h
  simp only [mkAnalysisId, String.data_append] at hd
  exact String.ext (List.append_cancel_left hd)

/-! ### Step characterization lemmas -/

theorem handleLogin_storedUsers (email password : String) (st : AppState) :
    (handleLogin email password st).storedUsers = st.storedUsers := by
  unfold handleLogin
  dsimp only
  split <;> rfl

theorem handleLogin_hist (email password : String) (st : AppState) :
    (handleLogin email password st).historicalAnalyses = st.historicalAnalyses := by
  unfold handleLogin
  dsimp only
  split <;> rfl

theorem handleRegister_hist (now : Nat) (email password : String) (st : AppState) :
    (handleRegister now email password st).historicalAnalyses = st.historicalAnalyses := by
  unfold handleRegister
  dsimp only
  split <;> rfl

theorem handleAnalyzeClick_storedUsers (st : AppState) (now : Nat)
    (outcome : Except String AnalysisResult) :
    (handleAnalyzeClick st now outcome).storedUsers = st.storedUsers := by
  unfold handleAnalyzeClick
  split
  · split
    · rfl
    · split <;> rfl
  · rfl

/-- Either `handleAnalyzeClick` leaves the history untouched (guard hit or
capability failure), or it prepends one record stamped with the clock
reading. -/
theorem handleAnalyzeClick_hist (st : AppState) (now : Nat)
    (outcome : Except String AnalysisResult) :
    (handleAnalyzeClick st now outcome).historicalAnalyses = st.historicalAnalyses ∨
    ∃ newRec : HistoricalAnalysis, newRec.timestamp = now ∧ newRec.id = mkAnalysisId now ∧
      (handleAnalyzeClick st now outcome).historicalAnalyses = newRec :: st.historicalAnalyses := by
  unfold handleAnalyzeClick
  split
  · split
    · left
      rfl
    · split
      · right
        exact ⟨_, rfl, rfl, rfl⟩
      · left
        rfl
  · left
    rfl

/-! ### Concrete demonstration values -/

/-- A concrete structured inference result. -/
def demoResult : AnalysisResult :=
  { plant_name := "Tomato"
    is_healthy := false
    disease_name := "Blight"
    confidence_score := 92 / 100
    description := "Leaf spots consistent with early blight."
    possible_causes := ["Fungal infection"]
    recommended_actions := ["Remove affected leaves"] }

/-- A concrete data-URI image preview. -/
def demoImage : String := "data:image/png;base64,AAAA"

/-- The seeded admin as a session principal. -/
def demoAdminPrincipal : User :=
  { id := "admin-001", email := "admin@plant.health", role := Role.admin }

/-- A concrete registered user principal. -/
def demoAlice : User :=
  { id := "user-1", email := "alice@x.com", role := Role.user }

/-- A concrete history record owned by alice. -/
def recAlice : HistoricalAnalysis :=
  { id := mkAnalysisId 5
    userEmail := "alice@x.com"
    analysis := demoResult
    timestamp := 5
    imageUrl := demoImage }

/-- A concrete history record owned by bob. -/
def recBob : HistoricalAnalysis :=
  { id := mkAnalysisId 7
    userEmail := "bob@x.com"
    analysis := demoResult
    timestamp := 7
    imageUrl := demoImage }

/-- A state in which an analysis can validly start: image selected and a
principal authenticated. -/
def readyState : AppState :=
  { initState with imagePreview := some demoImage, currentUser := some demoAlice }

/-- A state in the middle of an analysis: image selected, principal
authenticated, and the `isLoading` flag set. -/
def busyState : AppState :=
  { initState with
      imagePreview := some demoImage
      currentUser := some demoAlice
      isLoading := true }

/-! ### Claim theorems -/

/-- C1: listing history for a user-role principal returns exactly the records
whose `userEmail` equals that principal's email, preserving overall order
(the result is a sublist); listing for an admin-role principal returns the
full sequence unfiltered — and the rendered admin surface of the source
receives exactly that full sequence. -/
theorem listForPrincipal_role_filtering (p : User) (hist : List HistoricalAnalysis) :
    (p.role = Role.admin → listForPrincipal p hist = hist) ∧
    (p.role = Role.user →
      (∀ r, r ∈ listForPrincipal p hist ↔ r ∈ hist ∧ r.userEmail = p.email) ∧
      (listForPrincipal p hist).Sublist hist) ∧
    (∀ st : AppState, st.currentUser = some p → p.role = Role.admin →
      renderApp st = Surface.adminDashboard (listForPrincipal p st.historicalAnalyses)) := by
  refine ⟨fun h => by simp [listForPrincipal, h], fun h => ⟨fun r => ?_, ?_⟩,
    fun st hcu hrole => ?_⟩
  · have hne : p.role ≠ Role.admin := by simp [h]
    simp [listForPrincipal, hne, List.mem_filter]
  · have hne : p.role ≠ Role.admin := by simp [h]
    simp only [listForPrincipal, if_neg hne]
    exact List.filter_sublist hist
  · simp [renderApp, hcu, hrole, listForPrincipal]

/-- A state in which the admin is authenticated and one record is in the
history store. -/
def adminViewState : AppState :=
  { initState with
      currentUser := some demoAdminPrincipal
      historicalAnalyses := [recAlice] }

/-- C1 witness: concrete admin and user listings. -/
theorem listForPrincipal_role_filtering_witness :
    listForPrincipal demoAdminPrincipal [recAlice, recBob] = [recAlice, recBob] ∧
    (recAlice ∈ listForPrincipal demoAlice [recAlice, recBob] ↔
      recAlice ∈ [recAlice, recBob] ∧ recAlice.userEmail = demoAlice.email) ∧
    renderApp adminViewState
      = Surface.adminDashboard (listForPrincipal demoAdminPrincipal [recAlice]) :=
  ⟨(listForPrincipal_role_filtering demoAdminPrincipal [recAlice, recBob]).1 rfl,
    ((listForPrincipal_role_filtering demoAlice [recAlice, recBob]).2.1 rfl).1 recAlice,
    (listForPrincipal_role_filtering demoAdminPrincipal [recAlice]).2.2
      adminViewState rfl rfl⟩

/-- C2 (code bug demonstration): the guard of `handleAnalyzeClick` does not
consult `isLoading`, so invoking it while an analysis is already in progress
(`isLoading = true`) with an image selected and a principal authenticated
still invokes the external inference capability — it is neither a no-op nor
rejected. -/
theorem analyze_reentrancy_unguarded :
    busyState.isLoading = true ∧
    (handleAnalyzeClick busyState 7 (Except.ok demoResult)).inferenceCalls
      = busyState.inferenceCalls + 1 :=
  ⟨rfl, rfl⟩

/-- When the guard of `handleAnalyzeClick` fires (JS-falsy image preview or
no authenticated principal), only the error message changes: every other
field of the state is untouched. -/
theorem analyze_guard_spec (st : AppState) (now : Nat)
    (outcome : Except String AnalysisResult)
    (h : st.imagePreview = none ∨ st.imagePreview = some "" ∨ st.currentUser = none) :
    handleAnalyzeClick st now outcome
      = { st with error := some "Please select an image first." } := by
  cases hp : st.imagePreview with
  | none => cases hu : st.currentUser <;> simp [handleAnalyzeClick, hp, hu]
  | some img =>
    cases hu : st.currentUser with
    | none => simp [handleAnalyzeClick, hp, hu]
    | some user =>
      have himg : img = "" := by
        simp only [hp, hu] at h
        rcases h with h | h | h
        · exact absurd h (by simp)
        · exact Option.some_injective _ h
        · exact absurd h (by simp)
      simp [handleAnalyzeClick, hp, hu, himg]

/-- C4: invoking `handleAnalyzeClick` with no selected image (absent or empty
data URI) or no authenticated principal sets the error
"Please select an image first.", leaves `isLoading` untouched (no transition
to Analyzing), does not invoke the inference capability, and writes nothing
to the history store (in memory or persisted). -/
theorem analyze_precondition_rejected (st : AppState) (now : Nat)
    (outcome : Except String AnalysisResult)
    (h : st.imagePreview = none ∨ st.imagePreview = some "" ∨ st.currentUser = none) :
    (handleAnalyzeClick st now outcome).error = some "Please select an image first." ∧
    (handleAnalyzeClick st now outcome).isLoading = st.isLoading ∧
    (handleAnalyzeClick st now outcome).historicalAnalyses = st.historicalAnalyses ∧
    (handleAnalyzeClick st now outcome).storedAnalyses = st.storedAnalyses ∧
    (handleAnalyzeClick st now outcome).inferenceCalls = st.inferenceCalls := by
  rw [analyze_guard_spec st now outcome h]
  exact ⟨rfl, rfl, rfl, rfl, rfl⟩

/-- C4 witness: the initial state has no image selected, and the rejected
invocation behaves as stated. -/
theorem analyze_precondition_rejected_witness :
    initState.imagePreview = none ∧
    ((handleAnalyzeClick initState 3 (Except.ok demoResult)).error
        = some "Please select an image first." ∧
      (handleAnalyzeClick initState 3 (Except.ok demoResult)).isLoading = initState.isLoading ∧
      (handleAnalyzeClick initState 3 (Except.ok demoResult)).historicalAnalyses
        = initState.historicalAnalyses ∧
      (handleAnalyzeClick initState 3 (Except.ok demoResult)).storedAnalyses
        = initState.storedAnalyses ∧
      (handleAnalyzeClick initState 3 (Except.ok demoResult)).inferenceCalls
        = initState.inferenceCalls) :=
  ⟨rfl, analyze_precondition_rejected initState 3 (Except.ok demoResult) (Or.inl rfl)⟩

/-- C5: when the fallible analysis chain fails, `handleAnalyzeClick` captures
the human-readable message, clears the result (Failed state), clears
`isLoading` (the `finally` clause), and leaves the history store — in memory
and persisted — unchanged. -/
theorem analyze_failure_captured (st : AppState) (img : String) (user : User)
    (now : Nat) (msg : String) (himg : st.imagePreview = some img) (hne : img ≠ "")
    (huser : st.currentUser = some user) :
    (handleAnalyzeClick st now (Except.error msg)).error = some msg ∧
    (handleAnalyzeClick st now (Except.error msg)).analysisResult = none ∧
    (handleAnalyzeClick st now (Except.error msg)).isLoading = false ∧
    (handleAnalyzeClick st now (Except.error msg)).historicalAnalyses
      = st.historicalAnalyses ∧
    (handleAnalyzeClick st now (Except.error msg)).storedAnalyses = st.storedAnalyses := by
  simp [handleAnalyzeClick, himg, huser, hne]

/-- C5 witness: a concrete failing inference call from a ready state. -/
theorem analyze_failure_captured_witness :
    readyState.imagePreview = some demoImage ∧ demoImage ≠ "" ∧
    readyState.currentUser = some demoAlice ∧
    ((handleAnalyzeClick readyState 4 (Except.error "Network error")).error
        = some "Network error" ∧
      (handleAnalyzeClick readyState 4 (Except.error "Network error")).analysisResult = none ∧
      (handleAnalyzeClick readyState 4 (Except.error "Network error")).isLoading = false ∧
      (handleAnalyzeClick readyState 4 (Except.error "Network error")).historicalAnalyses
        = readyState.historicalAnalyses ∧
      (handleAnalyzeClick readyState 4 (Except.error "Network error")).storedAnalyses
        = readyState.storedAnalyses) :=
  ⟨rfl, by decide, rfl,
    analyze_failure_captured readyState demoImage demoAlice 4 "Network error"
      rfl (by decide) rfl⟩

/-- The record a successful `handleAnalyzeClick` builds (`App.tsx`
lines 79-85). -/
def newHistRecord (now : Nat) (img : String) (user : User)
    (result : AnalysisResult) : HistoricalAnalysis :=
  { id := mkAnalysisId now
    userEmail := user.email
    analysis := result
    timestamp := now
    imageUrl := img }

/-- C6: a successful analysis appends exactly one record, at the front of the
history sequence (also persisted as such), whose `userEmail` is the email of
the principal authenticated at that moment and whose timestamp is the
current clock reading, hence at least every previously recorded timestamp
(the clock hypothesis states that all earlier records were created at
earlier-or-equal clock readings). -/
theorem analyze_success_appends (st : AppState) (img : String) (user : User)
    (now : Nat) (result : AnalysisResult) (himg : st.imagePreview = some img)
    (hne : img ≠ "") (huser : st.currentUser = some user)
    (hclock : ∀ r ∈ st.historicalAnalyses, r.timestamp ≤ now) :
    ∃ newRec : HistoricalAnalysis,
      (handleAnalyzeClick st now (Except.ok result)).historicalAnalyses
        = newRec :: st.historicalAnalyses ∧
      (handleAnalyzeClick st now (Except.ok result)).storedAnalyses
        = some (newRec :: st.historicalAnalyses) ∧
      newRec.userEmail = user.email ∧
      newRec.timestamp = now ∧
      ∀ r ∈ st.historicalAnalyses, r.timestamp ≤ newRec.timestamp := by
  refine ⟨newHistRecord now img user result, ?_, ?_, rfl, rfl, hclock⟩
  · simp [handleAnalyzeClick, himg, huser, hne, newHistRecord]
  · simp [handleAnalyzeClick, himg, huser, hne, newHistRecord]

/-- C6 witness: a concrete successful analysis from a ready state with empty
history. -/
theorem analyze_success_appends_witness :
    readyState.imagePreview = some demoImage ∧
    (∀ r ∈ readyState.historicalAnalyses, r.timestamp ≤ 9) ∧
    ∃ newRec : HistoricalAnalysis,
      (handleAnalyzeClick readyState 9 (Except.ok demoResult)).historicalAnalyses
        = newRec :: readyState.historicalAnalyses ∧
      (handleAnalyzeClick readyState 9 (Except.ok demoResult)).storedAnalyses
        = some (newRec :: readyState.historicalAnalyses) ∧
      newRec.userEmail = demoAlice.email ∧
      newRec.timestamp = 9 ∧
      ∀ r ∈ readyState.historicalAnalyses, r.timestamp ≤ newRec.timestamp :=
  ⟨rfl, by decide,
    analyze_success_appends readyState demoImage demoAlice 9 demoResult
      rfl (by decide) rfl (by decide)⟩

/-- C7: registering an email already present in the Account Registry fails
with the duplicate-account message and changes nothing (registry, session,
persisted session all untouched); registering a fresh email appends exactly
one role-`user` credential record and auto-authenticates the new
principal. -/
theorem register_duplicate_and_fresh (st : AppState) (now : Nat)
    (email password : String) :
    ((∃ u ∈ registry st, u.email = email) →
      (handleRegister now email password st).storedUsers = st.storedUsers ∧
      (handleRegister now email password st).currentUser = st.currentUser ∧
      (handleRegister now email password st).storedCurrentUser = st.storedCurrentUser ∧
      (handleRegister now email password st).authError
        = some "An account with this email already exists.") ∧
    ((∀ u ∈ registry st, u.email ≠ email) →
      registry (handleRegister now email password st)
        = registry st ++ [mkNewUser now email password] ∧
      (mkNewUser now email password).role = Role.user ∧
      (handleRegister now email password st).currentUser
        = some { id := (mkNewUser now email password).id, email := email, role := Role.user } ∧
      (handleRegister now email password st).storedCurrentUser
        = (handleRegister now email password st).currentUser ∧
      (handleRegister now email password st).authError = none) := by
  constructor
  · intro h
    have hb : (registry st).any (fun u => u.email == email) = true := by
      obtain ⟨u, hu, he⟩ := h
      simp only [List.any_eq_true, beq_iff_eq]
      exact ⟨u, hu, he⟩
    unfold handleRegister
    dsimp only
    rw [if_pos hb]
    exact ⟨rfl, rfl, rfl, rfl⟩
  · intro h
    have hcond : ¬((registry st).any (fun u => u.email == email) = true) := by
      simp only [List.any_eq_true, beq_iff_eq]
      rintro ⟨u, hu, he⟩
      exact h u hu he
    unfold handleRegister
    dsimp only
    rw [if_neg hcond]
    exact ⟨by simp [registry], rfl, rfl, rfl, rfl⟩

/-- C7 witness: on the seeded registry, re-registering the admin email fails
and changes nothing, while registering a fresh email appends one
role-`user` record and authenticates it. -/
theorem register_duplicate_and_fresh_witness :
    (∃ u ∈ registry initState, u.email = "admin@plant.health") ∧
    (handleRegister 11 "admin@plant.health" "pw2" initState).storedUsers
      = initState.storedUsers ∧
    (handleRegister 11 "admin@plant.health" "pw2" initState).authError
      = some "An account with this email already exists." ∧
    (∀ u ∈ registry initState, u.email ≠ "alice@x.com") ∧
    registry (handleRegister 12 "alice@x.com" "pw1" initState)
      = registry initState ++ [mkNewUser 12 "alice@x.com" "pw1"] ∧
    (handleRegister 12 "alice@x.com" "pw1" initState).currentUser
      = some { id := (mkNewUser 12 "alice@x.com" "pw1").id, email := "alice@x.com", role := Role.user } := by
  refine ⟨by decide, ?_, ?_, by decide, ?_, ?_⟩
  · exact ((register_duplicate_and_fresh initState 11 "admin@plant.health" "pw2").1
      (by decide)).1
  · exact ((register_duplicate_and_fresh initState 11 "admin@plant.health" "pw2").1
      (by decide)).2.2.2
  · exact ((register_duplicate_and_fresh initState 12 "alice@x.com" "pw1").2
      (by decide)).1
  · exact ((register_duplicate_and_fresh initState 12 "alice@x.com" "pw1").2
      (by decide)).2.2.1

/-- C8: `handleLogin` succeeds (clearing the auth error) exactly when some
stored credential record matches both the email and the password; on success
the session holds the first matching record's principal and the session
marker is persisted to it; on failure the session and its persisted marker
are unchanged and the auth error reads "Invalid email or password.". -/
theorem login_exact_match (st : AppState) (email password : String) :
    ((handleLogin email password st).authError = none ↔
      ∃ u ∈ registry st, u.email = email ∧ u.password = password) ∧
    (∀ u, (registry st).find? (matchesCred email password) = some u →
      (handleLogin email password st).currentUser
        = some { id := u.id, email := u.email, role := u.role } ∧
      (handleLogin email password st).storedCurrentUser
        = (handleLogin email password st).currentUser ∧
      u ∈ registry st ∧ u.email = email ∧ u.password = password) ∧
    ((∀ u ∈ registry st, ¬(u.email = email ∧ u.password = password)) →
      (handleLogin email password st).currentUser = st.currentUser ∧
      (handleLogin email password st).storedCurrentUser = st.storedCurrentUser ∧
      (handleLogin email password st).authError = some "Invalid email or password.") := by
  refine ⟨?_, fun u hu => ?_, fun h => ?_⟩
  · cases hf : (registry st).find? (matchesCred email password) with
    | some u =>
      have hmem := List.mem_of_find?_eq_some hf
      have hp := List.find?_some hf
      simp only [matchesCred, Bool.and_eq_true, beq_iff_eq] at hp
      simp only [handleLogin, hf]
      simp
      exact ⟨u, hmem, hp.1, hp.2⟩
    | none =>
      have hall := List.find?_eq_none.mp hf
      simp only [handleLogin, hf]
      simp
      rintro u hu he hpw
      have := hall u hu
      simp [matchesCred, he, hpw] at this
  · have hmem := List.mem_of_find?_eq_some hu
    have hp := List.find?_some hu
    simp only [matchesCred, Bool.and_eq_true, beq_iff_eq] at hp
    refine ⟨?_, ?_, hmem, hp.1, hp.2⟩ <;> simp [handleLogin, hu]
  · have hf : (registry st).find? (matchesCred email password) = none := by
      rw [List.find?_eq_none]
      intro u hu
      simp only [matchesCred, Bool.and_eq_true, beq_iff_eq]
      rintro ⟨he, hpw⟩
      exact h u hu ⟨he, hpw⟩
    simp [handleLogin, hf]

/-- C8 witness: the seeded admin credentials log in; a wrong password is
rejected with the auth-error message. -/
theorem login_exact_match_witness :
    (registry initState).find? (matchesCred "admin@plant.health" "admin123")
      = some adminSeedUser ∧
    (handleLogin "admin@plant.health" "admin123" initState).currentUser
      = some { id := adminSeedUser.id, email := adminSeedUser.email, role := adminSeedUser.role } ∧
    (∀ u ∈ registry initState, ¬(u.email = "admin@plant.health" ∧ u.password = "wrong")) ∧
    (handleLogin "admin@plant.health" "wrong" initState).authError
      = some "Invalid email or password." ∧
    ((handleLogin "admin@plant.health" "admin123" initState).authError = none ↔
      ∃ u ∈ registry initState, u.email = "admin@plant.health" ∧ u.password = "admin123") := by
  refine ⟨by decide, ?_, by decide, ?_,
    (login_exact_match initState "admin@plant.health" "admin123").1⟩
  · exact ((login_exact_match initState "admin@plant.health" "admin123").2.1
      adminSeedUser (by decide)).1
  · exact ((login_exact_match initState "admin@plant.health" "wrong").2.2
      (by decide)).2.2

/-- Any single operation either leaves the registry untouched or appends
exactly one record to it (a successful registration). -/
theorem step_registry (st : AppState) (op : Op) :
    registry (step st op) = registry st ∨
    ∃ newU : StoredUser, registry (step st op) = registry st ++ [newU] := by
  cases op with
  | selectImage uri => left; rfl
  | analyze now outcome =>
    left
    simp [step, registry, handleAnalyzeClick_storedUsers]
  | login email password =>
    left
    simp [step, registry, handleLogin_storedUsers]
  | register now email password =>
    unfold step handleRegister
    dsimp only
    split
    · left
      rfl
    · right
      exact ⟨mkNewUser now email password, by simp [registry]⟩
  | logout => left; rfl

/-- Operations never remove registry records, so an admin record stays. -/
theorem run_preserves_admin (ops : List Op) : ∀ st : AppState,
    (∃ u ∈ registry st, u.role = Role.admin) →
    ∃ u ∈ registry (run st ops), u.role = Role.admin := by
  induction ops with
  | nil => exact fun st h => h
  | cons op ops ih =>
    intro st h
    simp only [run]
    apply ih
    rcases step_registry st op with heq | ⟨newU, heq⟩
    · rw [heq]
      exact h
    · rw [heq]
      obtain ⟨u, hu, hr⟩ := h
      exact ⟨u, List.mem_append_left _ hu, hr⟩

/-- C9: after initialization (the first-run seeding of the admin record) and
after every sequence of operations — registrations, logins, logouts, image
selections and analyses — the Account Registry contains at least one
admin-role record. -/
theorem registry_always_has_admin (ops : List Op) :
    ∃ u ∈ registry (run initState ops), u.role = Role.admin :=
  run_preserves_admin ops initState ⟨adminSeedUser, by decide, rfl⟩

/-- The history-store invariant: timestamps strictly decrease from the front
(newest first, strictly increasing in creation order) and every record's id
is the rendering of its creation clock. -/
def histInv (l : List HistoricalAnalysis) : Prop :=
  l.Pairwise (fun a b => b.timestamp < a.timestamp) ∧
  ∀ r ∈ l, r.id = mkAnalysisId r.timestamp

/-- Running any operations whose analysis clock readings are strictly
increasing and all above the existing records preserves the history-store
invariant. -/
theorem run_hist_invariant : ∀ (ops : List Op) (st : AppState),
    (analyzeClocks ops).Pairwise (· < ·) →
    (∀ r ∈ st.historicalAnalyses, ∀ c ∈ analyzeClocks ops, r.timestamp < c) →
    histInv st.historicalAnalyses →
    histInv (run st ops).historicalAnalyses := by
  intro ops
  induction ops with
  | nil => exact fun st _ _ h => h
  | cons op ops ih =>
    intro st hclk hub hinv
    simp only [run]
    cases op with
    | analyze now outcome =>
      simp only [analyzeClocks, List.pairwise_cons] at hclk
      simp only [analyzeClocks] at hub
      rcases handleAnalyzeClick_hist st now outcome with heq | ⟨newRec, hts, hid, heq⟩
      · refine ih (step st (Op.analyze now outcome)) hclk.2 ?_ ?_
        · simp only [step, heq]
          intro r hr c hc
          exact hub r hr c (List.mem_cons_of_mem _ hc)
        · simp only [step, heq]
          exact hinv
      · refine ih (step st (Op.analyze now outcome)) hclk.2 ?_ ?_
        · simp only [step, heq]
          intro r hr c hc
          rcases List.mem_cons.mp hr with h1 | h1
          · rw [h1, hts]
            exact hclk.1 c hc
          · exact hub r h1 c (List.mem_cons_of_mem _ hc)
        · simp only [step, heq]
          constructor
          · refine List.Pairwise.cons ?_ hinv.1
            intro b hb
            rw [hts]
            exact hub b hb now (List.mem_cons_self _ _)
          · intro r hr
            rcases List.mem_cons.mp hr with h1 | h1
            · rw [h1, hid, hts]
            · exact hinv.2 r h1
    | selectImage uri =>
      simp only [analyzeClocks] at hclk hub
      exact ih _ hclk hub hinv
    | login email password =>
      simp only [analyzeClocks] at hclk hub
      refine ih _ hclk ?_ ?_
      · simp only [step, handleLogin_hist]
        exact hub
      · simp only [step, handleLogin_hist]
        exact hinv
    | register now email password =>
      simp only [analyzeClocks] at hclk hub
      refine ih _ hclk ?_ ?_
      · simp only [step, handleRegister_hist]
        exact hub
      · simp only [step, handleRegister_hist]
        exact hinv
    | logout =>
      simp only [analyzeClocks] at hclk hub
      exact ih _ hclk hub hinv

/-- C3 (amended): for every run from the initial state whose successful
analyses happen at strictly increasing clock readings, the history sequence
holds strictly decreasing timestamps front to back (insertion order, newest
first; equivalently, timestamps — and hence ids — are strictly increasing in
creation order), all ids are pairwise distinct, and each id is the rendering
`analysis-` + clock of its creation instant. -/
theorem history_newest_first_ids_unique (ops : List Op)
    (hclk : (analyzeClocks ops).Pairwise (· < ·)) :
    ((run initState ops).historicalAnalyses.Pairwise
      (fun a b => b.timestamp < a.timestamp)) ∧
    ((run initState ops).historicalAnalyses.Pairwise (fun a b => a.id ≠ b.id)) ∧
    (∀ r ∈ (run initState ops).historicalAnalyses, r.id = mkAnalysisId r.timestamp) := by
  have h0 : initState.historicalAnalyses = ([] : List HistoricalAnalysis) := rfl
  have hinv := run_hist_invariant ops initState hclk
    (by rw [h0]; intro r hr; exact absurd hr (List.not_mem_nil r))
    (by rw [h0]; exact ⟨List.Pairwise.nil, fun r hr => absurd hr (List.not_mem_nil r)⟩)
  refine ⟨hinv.1, ?_, hinv.2⟩
  refine List.Pairwise.imp_of_mem ?_ hinv.1
  intro a b ha hb hlt hideq
  have hts : a.timestamp = b.timestamp :=
    mkAnalysisId_injective (by rw [← hinv.2 a ha, ← hinv.2 b hb, hideq])
  omega

/-- A run with two successful analyses completing at the same millisecond. -/
def collidingOps : List Op :=
  [Op.login "admin@plant.health" "admin123",
    Op.selectImage demoImage,
    Op.analyze 5 (Except.ok demoResult),
    Op.analyze 5 (Except.ok demoResult)]

/-- C3 counterexample: nothing in the code prevents two successful analyses
from completing within the same millisecond (`Date.now()` returning the same
value twice); both records then get the identical id `analysis-5`, so the id
values of the history are not unique. -/
theorem history_ids_can_collide :
    ¬ ((run initState collidingOps).historicalAnalyses.Pairwise
        (fun a b => a.id ≠ b.id)) := by decide

/-- A run with strictly increasing analysis clock readings. -/
def increasingOps : List Op :=
  [Op.login "admin@plant.health" "admin123",
    Op.selectImage demoImage,
    Op.analyze 5 (Except.ok demoResult),
    Op.analyze 8 (Except.ok demoResult)]

/-- C3 witness: a concrete run with strictly increasing clock readings
satisfies the amended invariant. -/
theorem history_newest_first_ids_unique_witness :
    (analyzeClocks increasingOps).Pairwise (· < ·) ∧
    (((run initState increasingOps).historicalAnalyses.Pairwise
        (fun a b => b.timestamp < a.timestamp)) ∧
      ((run initState increasingOps).historicalAnalyses.Pairwise
        (fun a b => a.id ≠ b.id)) ∧
      (∀ r ∈ (run initState increasingOps).historicalAnalyses,
        r.id = mkAnalysisId r.timestamp)) :=
  ⟨by decide, history_newest_first_ids_unique increasingOps (by decide)⟩

/-- A run in which a success is followed by a logout and a
precondition-rejected analysis. -/
def bothSetOps : List Op :=
  [Op.login "admin@plant.health" "admin123",
    Op.selectImage demoImage,
    Op.analyze 5 (Except.ok demoResult),
    Op.logout,
    Op.analyze 6 (Except.ok demoResult)]

/-- C10 counterexample: after a successful analysis, a logout, and another
`startAnalysis` invocation (rejected by the precondition guard, which sets
the error but does not clear the previously captured result), the captured
analysis result and the captured error message are both non-null. -/
theorem result_and_error_both_non_null :
    (run initState bothSetOps).analysisResult ≠ none ∧
    (run initState bothSetOps).error ≠ none := by decide

/-- C10 (amended): selecting an image clears both the captured result and the
captured error; a successful analysis leaves a result and no error; a failed
analysis leaves an error and no result; a precondition-rejected analysis
sets the error while leaving the previously captured result unchanged (so
only after a precondition rejection can both be non-null). -/
theorem pipeline_result_error_discipline (st : AppState) :
    (∀ uri, (handleImageSelect uri st).analysisResult = none ∧
      (handleImageSelect uri st).error = none) ∧
    (∀ img user now result, st.imagePreview = some img → img ≠ "" →
      st.currentUser = some user →
      (handleAnalyzeClick st now (Except.ok result)).analysisResult = some result ∧
      (handleAnalyzeClick st now (Except.ok result)).error = none) ∧
    (∀ img user now msg, st.imagePreview = some img → img ≠ "" →
      st.currentUser = some user →
      (handleAnalyzeClick st now (Except.error msg)).analysisResult = none ∧
      (handleAnalyzeClick st now (Except.error msg)).error = some msg) ∧
    (∀ now outcome,
      (st.imagePreview = none ∨ st.imagePreview = some "" ∨ st.currentUser = none) →
      (handleAnalyzeClick st now outcome).error = some "Please select an image first." ∧
      (handleAnalyzeClick st now outcome).analysisResult = st.analysisResult) := by
  refine ⟨fun uri => ⟨rfl, rfl⟩, fun img user now result himg hne huser => ?_,
    fun img user now msg himg hne huser => ?_, fun now outcome h => ?_⟩
  · constructor <;> simp [handleAnalyzeClick, himg, huser, hne]
  · constructor <;> simp [handleAnalyzeClick, himg, huser, hne]
  · rw [analyze_guard_spec st now outcome h]
    exact ⟨rfl, rfl⟩

/-- C10 witness: concrete image selection and a concrete successful analysis
exercise the amended discipline. -/
theorem pipeline_result_error_discipline_witness :
    ((handleImageSelect demoImage initState).analysisResult = none ∧
      (handleImageSelect demoImage initState).error = none) ∧
    readyState.imagePreview = some demoImage ∧
    ((handleAnalyzeClick readyState 9 (Except.ok demoResult)).analysisResult
        = some demoResult ∧
      (handleAnalyzeClick readyState 9 (Except.ok demoResult)).error = none) :=
  ⟨(pipeline_result_error_discipline initState).1 demoImage, rfl,
    (pipeline_result_error_discipline readyState).2.1 demoImage demoAlice 9 demoResult
      rfl (by decide) rfl⟩

end PlantHealth
